import Mathlib

/-!
Shallow embedding of the DevInsight log viewer (src/main.rs, src/tui.rs,
src/storage.rs) and proofs of the specification claims about it.

Modelling conventions:
* Rust `String`/`&str` operations are embedded as structurally recursive
  functions over `List Char` (`String.data`), so that every definition
  evaluates inside the kernel.  `char::to_lowercase` is modelled by
  `Char.toLower` (ASCII case folding), `char::is_whitespace` by the same
  ASCII whitespace set Lean uses.
* `VecDeque<LogEntry>` is a `List LogEntry`, the head being the oldest
  entry; `pop_front` is `List.drop 1`, `push_back` appends on the right.
* Wall-clock reads (`chrono::Local::now()`) are passed in as explicit
  `now` arguments: every function that formats a timestamp takes the
  formatted string as a parameter.
* `Instant`-based fields of the Rust `AppState` (`status_message`
  expiry, `last_notification`) carry real time; the message text is kept
  and the time component dropped.  The macOS-only notification block in
  `add_log` is compiled out (`cfg(feature = "macos")`) and not modelled.
* File-system effects of the storage module are modelled by explicit
  state: the path of the currently open file, the byte counter the code
  keeps, and the history of files opened; directory contents and channel
  snapshots are explicit values.
* `serde_json` (de)serialization is not re-implemented: the storage
  model takes record byte-lengths, and the query model takes the line
  parser as a function parameter.
-/

/-! ### Character and string primitives (Rust `str` operations) -/

/-- `needle` is a prefix of `hay` (char-for-char equality). -/
def startsWithL : List Char → List Char → Bool
  | _, [] => true
  | [], _ :: _ => false
  | a :: as, b :: bs => a == b && startsWithL as bs

/-- Rust `str::contains`: `needle` occurs as a contiguous substring of `hay`. -/
def hasSubL : List Char → List Char → Bool
  | [], needle => needle.isEmpty
  | a :: t, needle => startsWithL (a :: t) needle || hasSubL t needle

/-- Substring test on `String`s, via their character lists. -/
def strHasSub (hay needle : String) : Bool :=
  hasSubL hay.data needle.data

/-- Rust `str::to_lowercase`, modelled as per-character ASCII lowering. -/
def toLowerStr (s : String) : String :=
  String.mk (s.data.map Char.toLower)

/-- ASCII whitespace, as used by the split/trim operations. -/
def isWsChar (c : Char) : Bool :=
  c == ' ' || c == '\t' || c == '\n' || c == '\r'

/-- Rust `str::trim`: drop whitespace from both ends. -/
def trimL (l : List Char) : List Char :=
  ((l.dropWhile isWsChar).reverse.dropWhile isWsChar).reverse

/-- Accumulating worker for `wordsL`; `acc` holds the current word reversed. -/
def wordsAux : List Char → List Char → List (List Char)
  | [], acc => if acc.isEmpty then [] else [acc.reverse]
  | c :: cs, acc =>
    if isWsChar c then
      if acc.isEmpty then wordsAux cs [] else acc.reverse :: wordsAux cs []
    else wordsAux cs (c :: acc)

/-- Rust `str::split_whitespace`: maximal non-whitespace runs, no empties. -/
def wordsL (l : List Char) : List (List Char) :=
  wordsAux l []

/-- Rust `str.splitn(2, ':')`: the part before the first `:` and, when a
`:` exists, the remainder after it. -/
def splitFirstColon : List Char → List Char × Option (List Char)
  | [] => ([], none)
  | c :: cs =>
    if c == ':' then ([], some cs)
    else
      let r := splitFirstColon cs
      (c :: r.1, r.2)

/-! ### Data model (src/tui.rs) -/

inductive LogLevel where
  | Error
  | Warning
  | Info
  | Debug
  | Verbose
  | Unknown
deriving DecidableEq

/-- `LogLevel::as_str` from src/tui.rs. -/
def LogLevel.as_str : LogLevel → String
  | .Error => "ERROR"
  | .Warning => "WARN"
  | .Info => "INFO"
  | .Debug => "DEBUG"
  | .Verbose => "VERBOSE"
  | .Unknown => "UNKNOWN"

structure LogEntry where
  level : LogLevel
  timestamp : String
  tag : String
  message : String
deriving DecidableEq

inductive View where
  | Logs
  | Stats
  | Storage
deriving DecidableEq

inductive ConnectionStatus where
  | Connected
  | Disconnected
  | Error
deriving DecidableEq

structure LogStats where
  error_count : Nat
  warning_count : Nat
  info_count : Nat
  debug_count : Nat
  verbose_count : Nat
deriving DecidableEq

structure StorageInfo where
  current_file : String
  total_size : Nat
  file_count : Nat
deriving DecidableEq

/-- The `AppState` of src/tui.rs.  `status_message` keeps only the text of
the Rust `Option<(String, Instant)>` pair. -/
structure AppState where
  current_view : View
  logs : List LogEntry
  filtered_logs : List Nat
  scroll : Nat
  paused : Bool
  search_query : String
  search_mode : Bool
  storage_info : Option StorageInfo
  stats : LogStats
  level_filters : List LogLevel
  tail_mode : Bool
  status_message : Option String
  connection_status : ConnectionStatus
  notify_on_error : Bool
deriving DecidableEq

/-- Store capacity of `add_log` (the literal 10000 in src/tui.rs). -/
def CAP : Nat := 10000

/-- Eviction batch size of `add_log` (the literal 1000 in src/tui.rs). -/
def EVICT : Nat := 1000

/-- `AppState::new`. -/
def AppState.new : AppState where
  current_view := View.Logs
  logs := []
  filtered_logs := []
  scroll := 0
  paused := false
  search_query := ""
  search_mode := false
  storage_info := none
  stats := { error_count := 0, warning_count := 0, info_count := 0,
             debug_count := 0, verbose_count := 0 }
  level_filters := [LogLevel.Error, LogLevel.Warning, LogLevel.Info,
                    LogLevel.Debug, LogLevel.Verbose]
  tail_mode := true
  status_message := none
  connection_status := ConnectionStatus.Connected
  notify_on_error := true

/-- The per-entry predicate of `AppState::update_filtered_logs`. -/
def matchesFilter (filters : List LogLevel) (q : String) (e : LogEntry) : Bool :=
  filters.contains e.level &&
  (q.isEmpty ||
    (strHasSub (toLowerStr e.message) (toLowerStr q) ||
     strHasSub (toLowerStr e.tag) (toLowerStr q) ||
     strHasSub (toLowerStr e.level.as_str) (toLowerStr q)))

/-- The index list `update_filtered_logs` computes:
`enumerate().filter(..).map(|(i, _)| i).collect()`. -/
def filterIndices (filters : List LogLevel) (q : String) (logs : List LogEntry) :
    List Nat :=
  ((logs.enum.filter fun x => matchesFilter filters q x.2).map Prod.fst)

/-- `AppState::update_filtered_logs`: recompute the index list and, in tail
mode, pin the scroll position (`saturating_sub` is `Nat` subtraction). -/
def update_filtered_logs (s : AppState) : AppState :=
  let fl := filterIndices s.level_filters s.search_query s.logs
  { s with
    filtered_logs := fl
    scroll := if s.tail_mode then fl.length - 1 else s.scroll }

/-- The statistics update inside `add_log`. -/
def bumpStats (st : LogStats) : LogLevel → LogStats
  | .Error => { st with error_count := st.error_count + 1 }
  | .Warning => { st with warning_count := st.warning_count + 1 }
  | .Info => { st with info_count := st.info_count + 1 }
  | .Debug => { st with debug_count := st.debug_count + 1 }
  | .Verbose => { st with verbose_count := st.verbose_count + 1 }
  | .Unknown => st

/-- `AppState::add_log`: while paused the entry is dropped; otherwise evict
the oldest `EVICT` entries once `CAP` is reached, bump the level counter,
append, and recompute the filtered index. -/
def add_log (s : AppState) (e : LogEntry) : AppState :=
  if s.paused then s
  else
    update_filtered_logs
      { s with
        logs := (if CAP ≤ s.logs.length then s.logs.drop EVICT else s.logs) ++ [e]
        stats := bumpStats s.stats e.level }

/-- `AppState::toggle_level`: remove the level at its first position if
present, otherwise push it; then recompute. -/
def toggle_level (s : AppState) (lv : LogLevel) : AppState :=
  update_filtered_logs
    { s with
      level_filters :=
        if s.level_filters.contains lv then s.level_filters.erase lv
        else s.level_filters ++ [lv] }

/-! ### Parsing (src/main.rs, `parse_log_entry`) -/

/-- The level-classification chain of `parse_log_entry`: marker substrings
tried in priority order, first match wins. -/
def classify_level (log : String) : LogLevel :=
  if strHasSub log " E " || strHasSub log "Error" then LogLevel.Error
  else if strHasSub log " W " || strHasSub log "Warning" then LogLevel.Warning
  else if strHasSub log " I " || strHasSub log "Info" then LogLevel.Info
  else if strHasSub log " D " || strHasSub log "Debug" then LogLevel.Debug
  else if strHasSub log " V " || strHasSub log "Verbose" then LogLevel.Verbose
  else LogLevel.Unknown

/-- `parse_log_entry` from src/main.rs.  `now` stands for the formatted
`chrono::Local::now()` value used when the header has fewer than two
whitespace tokens. -/
def parse_log_entry (now : String) (log : String) : LogEntry :=
  let parts := splitFirstColon log.data
  let message :=
    match parts.2 with
    | some rest => String.mk (trimL rest)
    | none => log
  let header_parts := wordsL parts.1
  let timestamp :=
    if 2 ≤ header_parts.length then
      String.mk ((header_parts.headD []) ++ ' ' :: (header_parts.drop 1).headD [])
    else now
  let tag := String.mk (((header_parts.reverse.take 2).getLast?).getD "UNKNOWN".data)
  { level := classify_level log
    timestamp := timestamp
    tag := tag
    message := message }

/-! ### Event loop operations (src/tui.rs, `Tui::run`) -/

/-- Search-mode character key: push onto the query and recompute. -/
def searchPushChar (s : AppState) (c : Char) : AppState :=
  update_filtered_logs { s with search_query := s.search_query.push c }

/-- Search-mode `Backspace`: pop the last character (if any) and recompute. -/
def searchDelChar (s : AppState) : AppState :=
  if s.search_query.isEmpty then s
  else update_filtered_logs
    { s with search_query := String.mk s.search_query.data.dropLast }

/-- Search-mode `Esc`: leave search mode, clear the query, recompute,
clear the status message. -/
def searchCancel (s : AppState) : AppState :=
  { update_filtered_logs { s with search_mode := false, search_query := "" } with
    status_message := none }

/-- Search-mode `Enter`: leave search mode keeping the query, recompute,
clear the status message. -/
def searchConfirm (s : AppState) : AppState :=
  { update_filtered_logs { s with search_mode := false } with
    status_message := none }

/-- The main-loop body for one entry received from the log channel:
`add_log` followed by the extra tail-mode scroll pin. -/
def recvLog (s : AppState) (e : LogEntry) : AppState :=
  let s1 := add_log s e
  if s1.tail_mode then { s1 with scroll := s1.filtered_logs.length - 1 } else s1

/-- One input event of the interactive loop, as dispatched in `Tui::run`.
`keyChar` covers every `KeyCode::Char` binding (interpreted per mode);
clipboard writes are assumed to succeed (their failure only skips the
status message). -/
inductive UiEvent where
  | keyChar (c : Char)
  | keyUp
  | keyDown
  | keyHome
  | keyEnd
  | keyPageUp
  | keyPageDown
  | keyEsc
  | keyEnter
  | keyBackspace
  | mouseScrollUp
  | mouseScrollDown
  | recvEntry (e : LogEntry)
  | recvStorage (u : StorageInfo)
  | setConn (c : ConnectionStatus)

/-- The clipboard-copy branch of keys `y` and `c`: a status message is set
iff the scroll position selects a valid entry. -/
def copyCurrent (s : AppState) : AppState :=
  match s.filtered_logs.get? s.scroll with
  | some i =>
    match s.logs.get? i with
    | some _ => { s with status_message := some "Log copied to clipboard" }
    | none => s
  | none => s

/-- Normal-mode character-key dispatch of `Tui::run`. -/
def normalChar (s : AppState) (c : Char) : AppState :=
  if c == '1' then { s with current_view := View.Logs }
  else if c == '2' then { s with current_view := View.Stats }
  else if c == '3' then { s with current_view := View.Storage }
  else if c == '/' then { s with search_mode := true }
  else if c == ' ' then { s with paused := !s.paused }
  else if c == 't' then { s with tail_mode := !s.tail_mode }
  else if c == 'e' then toggle_level s LogLevel.Error
  else if c == 'w' then toggle_level s LogLevel.Warning
  else if c == 'i' then toggle_level s LogLevel.Info
  else if c == 'd' then toggle_level s LogLevel.Debug
  else if c == 'v' then toggle_level s LogLevel.Verbose
  else if c == 'G' then { s with scroll := s.filtered_logs.length - 1 }
  else if c == 'g' then { s with scroll := 0 }
  else if c == 'y' then copyCurrent s
  else if c == 'c' then copyCurrent s
  else if c == 'n' then
    { s with
      notify_on_error := !s.notify_on_error
      status_message := some (if !s.notify_on_error then "Notifications enabled"
                              else "Notifications disabled") }
  else s

/-- One step of the interactive state machine (`Tui::run` event dispatch,
plus the channel drains). -/
def applyEvent (s : AppState) : UiEvent → AppState
  | .recvEntry e => recvLog s e
  | .recvStorage u => { s with storage_info := some u }
  | .setConn c => { s with connection_status := c }
  | .keyChar c => if s.search_mode then searchPushChar s c else normalChar s c
  | .keyEsc => if s.search_mode then searchCancel s else s
  | .keyEnter => if s.search_mode then searchConfirm s else s
  | .keyBackspace => if s.search_mode then searchDelChar s else s
  | .keyUp =>
    if s.search_mode then s
    else if 0 < s.scroll then { s with tail_mode := false, scroll := s.scroll - 1 }
    else s
  | .keyDown =>
    if s.search_mode then s
    else
      let maxScroll := s.filtered_logs.length - 1
      if s.scroll < maxScroll then
        { s with scroll := s.scroll + 1,
                 tail_mode := s.scroll + 1 == maxScroll || s.tail_mode }
      else s
  | .keyEnd =>
    if s.search_mode then s
    else { s with scroll := s.filtered_logs.length - 1 }
  | .keyHome => if s.search_mode then s else { s with scroll := 0 }
  | .keyPageUp =>
    if s.search_mode then s
    else { s with tail_mode := false, scroll := s.scroll - 10 }
  | .keyPageDown =>
    if s.search_mode then s
    else
      let maxScroll := s.filtered_logs.length - 1
      let ns := min (s.scroll + 10) maxScroll
      { s with scroll := ns, tail_mode := ns == maxScroll || s.tail_mode }
  | .mouseScrollUp =>
    if 0 < s.scroll then { s with tail_mode := false, scroll := s.scroll - 3 }
    else s
  | .mouseScrollDown =>
    let maxScroll := s.filtered_logs.length - 1
    if s.scroll < maxScroll then
      let ns := min (s.scroll + 3) maxScroll
      { s with scroll := ns, tail_mode := ns == maxScroll || s.tail_mode }
    else s

/-- Run the interactive loop from the initial state over a list of events. -/
def runEvents (evs : List UiEvent) : AppState :=
  evs.foldl applyEvent AppState.new

/-- Feed a sequence of entries through `add_log` from the initial state. -/
def addAll (es : List LogEntry) : AppState :=
  es.foldl add_log AppState.new

/-! ### Storage (src/storage.rs) -/

/-- `LogStorage::generate_filename`, with the formatted timestamp passed in. -/
def generate_filename (base now : String) : String :=
  base ++ "/logcat_" ++ now ++ ".jsonl"

/-- Observable state of a `LogStorage`: the open file, the byte counter the
code keeps (`current_size`, which counts serialized records without their
newline bytes), and the history of files opened so far. -/
structure StorageState where
  currentFile : String
  current_size : Nat
  openedFiles : List String
deriving DecidableEq

/-- `LogStorage::new`: open a first timestamp-named file with a zero counter. -/
def storageNew (base now : String) : StorageState where
  currentFile := generate_filename base now
  current_size := 0
  openedFiles := [generate_filename base now]

/-- `LogStorage::rotate_log`: open a fresh timestamp-named file and reset
the byte counter. -/
def rotate_log (base now : String) (s : StorageState) : StorageState where
  currentFile := generate_filename base now
  current_size := 0
  openedFiles := s.openedFiles ++ [generate_filename base now]

/-- `LogStorage::store_log` for a record whose serialized JSON is `recLen`
bytes: bump the counter, then rotate exactly when it has reached
`max_size * 1024 * 1024`. -/
def store_log (base now : String) (max_size recLen : Nat) (s : StorageState) :
    StorageState :=
  let s1 : StorageState := { s with current_size := s.current_size + recLen }
  if max_size * 1024 * 1024 ≤ s1.current_size then rotate_log base now s1 else s1

/-- Fold `store_log` over a sequence of (record length, timestamp) pairs. -/
def runStores (base : String) (max_size : Nat) (rs : List (Nat × String))
    (s : StorageState) : StorageState :=
  rs.foldl (fun st r => store_log base r.2 max_size r.1 st) s

/-- Total serialized length of a record sequence. -/
def sumLens (rs : List (Nat × String)) : Nat :=
  (rs.map Prod.fst).sum

/-- A directory entry as seen by the storage module: a name, a byte size,
and whether it is a plain file. -/
structure DirFile where
  name : String
  size : Nat
  isFile : Bool
deriving DecidableEq

/-- `Path::extension() == Some("jsonl")`: the name has a dot-separated
final component `jsonl` and a nonempty stem. -/
def isJsonlName (name : String) : Bool :=
  let comps := name.data.splitOn '.'
  decide (2 ≤ comps.length) && !((comps.headD []).isEmpty) &&
    (comps.getLast?.getD []) == "jsonl".data

/-- `LogStorage::get_directory_size`: sum of the sizes of plain files. -/
def get_directory_size (d : List DirFile) : Nat :=
  ((d.filter fun f => f.isFile).map fun f => f.size).sum

/-- `LogStorage::count_log_files`: number of entries with extension `jsonl`. -/
def count_log_files (d : List DirFile) : Nat :=
  (d.filter fun f => isJsonlName f.name).length

/-- The snapshot record sent on the status channel. -/
structure StorageUpdate where
  current_file : String
  total_size : Nat
  file_count : Nat
deriving DecidableEq

/-- `LogStorage::send_storage_update`: the snapshot it builds.  Note the
code regenerates `current_file` from the clock at send time
(`Local::now()`), not from the file actually open; `now` is that clock
value and `d` the directory contents. -/
def send_storage_update (base now : String) (d : List DirFile) : StorageUpdate where
  current_file := generate_filename base now
  total_size := get_directory_size d
  file_count := count_log_files d

/-! ### Query path (src/storage.rs, `query_logs`) -/

/-- A stored record as deserialized by the query path; the timestamp is an
integer instant (chrono `DateTime` ordering). -/
structure StoredLog where
  timestamp : Int
  level : String
  tag : String
  message : String
  device_id : Option String
deriving DecidableEq

/-- One directory entry as the query loop sees it: the entry itself may
fail to read, opening the file may fail, or the file yields lines (each
of which may itself fail to read). -/
inductive EntryRes where
  | entryErr
  | openErr
  | file (lines : List (Except Unit String))

/-- The per-file loop of `query_logs`: keep the records of readable,
deserializable lines whose timestamp lies in the inclusive range. -/
def scanFileLines (parse : String → Option StoredLog) (startT endT : Int)
    (lines : List (Except Unit String)) : List StoredLog :=
  lines.filterMap fun l =>
    match l with
    | .error _ => none
    | .ok str =>
      match parse str with
      | none => none
      | some g =>
        if startT ≤ g.timestamp ∧ g.timestamp ≤ endT then some g else none

/-- The directory loop of `query_logs`: a failing entry or a failing open
aborts with the error, otherwise file results are concatenated in order. -/
def queryEntries (parse : String → Option StoredLog) (startT endT : Int) :
    List EntryRes → Except Unit (List StoredLog)
  | [] => .ok []
  | .entryErr :: _ => .error ()
  | .openErr :: _ => .error ()
  | .file lines :: rest =>
    match queryEntries parse startT endT rest with
    | .error e => .error e
    | .ok logs => .ok (scanFileLines parse startT endT lines ++ logs)

/-- `LogStorage::query_logs`: a directory-read failure aborts immediately,
otherwise every entry is scanned. -/
def query_logs (parse : String → Option StoredLog) (startT endT : Int) :
    Except Unit (List EntryRes) → Except Unit (List StoredLog)
  | .error _ => .error ()
  | .ok entries => queryEntries parse startT endT entries

/-- The display invariant of claim C10: `Unknown` is never an enabled
level, and every index in the filtered view points at a stored entry
whose level is not `Unknown`. -/
def UnknownExcluded (s : AppState) : Prop :=
  LogLevel.Unknown ∉ s.level_filters ∧
  ∀ i ∈ s.filtered_logs, ∃ e, s.logs[i]? = some e ∧ e.level ≠ LogLevel.Unknown

/-! ### Concrete values used by witnesses -/

/-- A sample Info-level entry. -/
def eInfo : LogEntry where
  level := LogLevel.Info
  timestamp := "03-21 10:23:45.678"
  tag := "SysUi"
  message := "started"

/-- A sample Error-level entry. -/
def eErr : LogEntry where
  level := LogLevel.Error
  timestamp := "03-21 10:23:46.000"
  tag := "Net"
  message := "socket closed"

/-- A paused state holding one entry. -/
def sPaused : AppState :=
  { AppState.new with paused := true, logs := [eInfo] }

/-- A full store: `CAP` copies of the sample entry. -/
def bigState : AppState :=
  { AppState.new with logs := List.replicate CAP eInfo }

/-- A small state in tail mode with two entries. -/
def sTail : AppState :=
  { AppState.new with logs := [eInfo, eErr], tail_mode := true }

/-- The literal test line of the specification's end-to-end scenario. -/
def scenarioLine : String :=
  "03-21 10:23:45.678  1234  5678 E MyTag: Something broke"

/-! ## Helper lemmas -/

theorem update_filtered_logs_fields (s : AppState) :
    (update_filtered_logs s).filtered_logs =
      filterIndices s.level_filters s.search_query s.logs ∧
    (update_filtered_logs s).logs = s.logs ∧
    (update_filtered_logs s).paused = s.paused ∧
    (update_filtered_logs s).tail_mode = s.tail_mode ∧
    (update_filtered_logs s).level_filters = s.level_filters ∧
    (update_filtered_logs s).search_query = s.search_query :=
  ⟨rfl, rfl, rfl, rfl, rfl, rfl⟩

theorem tailPin (s : AppState) (h : s.tail_mode = true) :
    (update_filtered_logs s).scroll = (update_filtered_logs s).filtered_logs.length - 1 := by
  simp [update_filtered_logs, h]

theorem add_log_paused_field (s : AppState) (e : LogEntry) :
    (add_log s e).paused = s.paused := by
  by_cases h : s.paused <;> simp [add_log, h, update_filtered_logs]

theorem add_log_logs (s : AppState) (e : LogEntry) (h : s.paused = false) :
    (add_log s e).logs =
      (if CAP ≤ s.logs.length then s.logs.drop EVICT else s.logs) ++ [e] := by
  simp [add_log, h, update_filtered_logs]

/-! ## Claim C6 -/

/-- Claim C6: while `paused` is set, `add_log` drops the entry and leaves
the entire application state unchanged — no append, no eviction, no stats
increment, no recompute of the filtered index. -/
theorem c6_pause_frame (s : AppState) (e : LogEntry) (h : s.paused = true) :
    add_log s e = s := by
  simp [add_log, h]

theorem c6_pause_frame_witness : add_log sPaused eErr = sPaused :=
  c6_pause_frame sPaused eErr rfl

/-! ## Claim C7 -/

/-- Claim C7: level classification tests marker substrings in the fixed
priority order Error > Warning > Info > Debug > Verbose, first match
winning: any line containing " E " or "Error" is Error regardless of
later markers, and a line matching no marker is Unknown. -/
theorem c7_level_priority :
    (∀ log : String, (strHasSub log " E " || strHasSub log "Error") = true →
       classify_level log = LogLevel.Error) ∧
    (∀ log : String, strHasSub log " E " = false → strHasSub log "Error" = false →
       (strHasSub log " W " || strHasSub log "Warning") = true →
       classify_level log = LogLevel.Warning) ∧
    (∀ log : String, strHasSub log " E " = false → strHasSub log "Error" = false →
       strHasSub log " W " = false → strHasSub log "Warning" = false →
       (strHasSub log " I " || strHasSub log "Info") = true →
       classify_level log = LogLevel.Info) ∧
    (∀ log : String, strHasSub log " E " = false → strHasSub log "Error" = false →
       strHasSub log " W " = false → strHasSub log "Warning" = false →
       strHasSub log " I " = false → strHasSub log "Info" = false →
       (strHasSub log " D " || strHasSub log "Debug") = true →
       classify_level log = LogLevel.Debug) ∧
    (∀ log : String, strHasSub log " E " = false → strHasSub log "Error" = false →
       strHasSub log " W " = false → strHasSub log "Warning" = false →
       strHasSub log " I " = false → strHasSub log "Info" = false →
       strHasSub log " D " = false → strHasSub log "Debug" = false →
       (strHasSub log " V " || strHasSub log "Verbose") = true →
       classify_level log = LogLevel.Verbose) ∧
    (∀ log : String, classify_level log = LogLevel.Unknown ↔
       (strHasSub log " E " = false ∧ strHasSub log "Error" = false ∧
        strHasSub log " W " = false ∧ strHasSub log "Warning" = false ∧
        strHasSub log " I " = false ∧ strHasSub log "Info" = false ∧
        strHasSub log " D " = false ∧ strHasSub log "Debug" = false ∧
        strHasSub log " V " = false ∧ strHasSub log "Verbose" = false)) := by
  refine ⟨?_, ?_, ?_, ?_, ?_, ?_⟩
  · intro log h; simp [classify_level, h]
  · intro log h1 h2 h; simp [classify_level, h1, h2, h]
  · intro log h1 h2 h3 h4 h; simp [classify_level, h1, h2, h3, h4, h]
  · intro log h1 h2 h3 h4 h5 h6 h; simp [classify_level, h1, h2, h3, h4, h5, h6, h]
  · intro log h1 h2 h3 h4 h5 h6 h7 h8 h
    simp [classify_level, h1, h2, h3, h4, h5, h6, h7, h8, h]
  · intro log
    constructor
    · intro h
      by_cases e1 : strHasSub log " E " <;> by_cases e2 : strHasSub log "Error" <;>
        by_cases w1 : strHasSub log " W " <;> by_cases w2 : strHasSub log "Warning" <;>
        by_cases i1 : strHasSub log " I " <;> by_cases i2 : strHasSub log "Info" <;>
        by_cases d1 : strHasSub log " D " <;> by_cases d2 : strHasSub log "Debug" <;>
        by_cases v1 : strHasSub log " V " <;> by_cases v2 : strHasSub log "Verbose" <;>
        simp_all [classify_level]
    · intro h
      simp [classify_level, h.1, h.2.1, h.2.2.1, h.2.2.2.1, h.2.2.2.2.1,
        h.2.2.2.2.2.1, h.2.2.2.2.2.2.1, h.2.2.2.2.2.2.2.1,
        h.2.2.2.2.2.2.2.2.1, h.2.2.2.2.2.2.2.2.2]

theorem c7_level_priority_witness :
    classify_level "x E y Debug z" = LogLevel.Error :=
  c7_level_priority.1 "x E y Debug z" (by decide)

/-! ## Claim C4 -/

/-- Claim C4 (code bug): on the literal scenario line the parser does
yield level `Error`, and its tag is the last-but-one whitespace token of
the text before the FIRST colon — but that first colon sits inside the
timestamp (`10:23:45.678`), so the header is `"03-21 10"`, the tag is
`"03-21"`, and the message is the whole remainder after that colon, not
`"Something broke"` as the claim (and the code's own format comment)
expects. -/
theorem c4_parse_scenario :
    (parse_log_entry "04-01 00:00:00" scenarioLine).level = LogLevel.Error ∧
    (parse_log_entry "04-01 00:00:00" scenarioLine).tag = "03-21" ∧
    (parse_log_entry "04-01 00:00:00" scenarioLine).timestamp = "03-21 10" ∧
    (parse_log_entry "04-01 00:00:00" scenarioLine).message =
      "23:45.678  1234  5678 E MyTag: Something broke" ∧
    (parse_log_entry "04-01 00:00:00" scenarioLine).message ≠ "Something broke" := by
  refine ⟨by decide, by decide, by decide, by decide, by decide⟩

/-! ## Claim C9 -/

/-- Claim C9 (code bug): `send_storage_update` rebuilds `current_file`
from the clock at send time instead of the path actually open for
writing (which the struct does not even store, and which `new` reported
correctly).  With the file opened at 10:15:00 and the snapshot sent at
10:15:01, the snapshot names a path different from the open file.  The
`total_size` and `file_count` fields do report the directory totals. -/
theorem c9_snapshot_names_send_time :
    (send_storage_update "logs" "20240321_101501"
        [{ name := "logcat_20240321_101500.jsonl", size := 84, isFile := true }]).current_file
      = "logs/logcat_20240321_101501.jsonl" ∧
    (storageNew "logs" "20240321_101500").currentFile
      = "logs/logcat_20240321_101500.jsonl" ∧
    "logs/logcat_20240321_101501.jsonl" ≠ "logs/logcat_20240321_101500.jsonl" ∧
    (send_storage_update "logs" "20240321_101501"
        [{ name := "logcat_20240321_101500.jsonl", size := 84, isFile := true }]).total_size
      = 84 ∧
    (send_storage_update "logs" "20240321_101501"
        [{ name := "logcat_20240321_101500.jsonl", size := 84, isFile := true }]).file_count
      = 1 := by
  refine ⟨by decide, by decide, by decide, by decide, by decide⟩

/-! ## Claim C2 -/

theorem matchesFilter_iff (filters : List LogLevel) (q : String) (e : LogEntry) :
    matchesFilter filters q e = true ↔
      e.level ∈ filters ∧
      (q = "" ∨ strHasSub (toLowerStr e.message) (toLowerStr q) = true ∨
        strHasSub (toLowerStr e.tag) (toLowerStr q) = true ∨
        strHasSub (toLowerStr e.level.as_str) (toLowerStr q) = true) := by
  simp [matchesFilter, List.elem_iff, String.isEmpty_iff, Bool.or_assoc]

theorem mem_filterIndices (filters : List LogLevel) (q : String)
    (logs : List LogEntry) (i : Nat) :
    i ∈ filterIndices filters q logs ↔
      ∃ e, logs[i]? = some e ∧ matchesFilter filters q e = true := by
  simp only [filterIndices, List.mem_map, List.mem_filter]
  constructor
  · rintro ⟨⟨j, e⟩, ⟨hj, hp⟩, rfl⟩
    have hj2 : (j, e) ∈ List.enumFrom 0 logs := hj
    have := (List.mk_mem_enumFrom_iff_le_and_getElem?_sub.mp hj2).2
    simpa using ⟨e, this, hp⟩
  · rintro ⟨e, he, hp⟩
    refine ⟨(i, e), ⟨?_, hp⟩, rfl⟩
    show (i, e) ∈ List.enumFrom 0 logs
    exact List.mk_mem_enumFrom_iff_le_and_getElem?_sub.mpr ⟨Nat.zero_le i, by simpa using he⟩

theorem filterIdxFrom_lb (p : Nat × LogEntry → Bool) (l : List LogEntry)
    (n i : Nat) (h : i ∈ ((List.enumFrom n l).filter p).map Prod.fst) : n ≤ i := by
  simp only [List.mem_map, List.mem_filter] at h
  obtain ⟨⟨j, e⟩, ⟨hj, _⟩, hfst⟩ := h
  cases hfst
  exact (List.mk_mem_enumFrom_iff_le_and_getElem?_sub.mp hj).1

theorem filterIdxFrom_pairwise (p : Nat × LogEntry → Bool) (l : List LogEntry) :
    ∀ n : Nat, List.Pairwise (· < ·) (((List.enumFrom n l).filter p).map Prod.fst) := by
  induction l with
  | nil => intro n; simp
  | cons a t ih =>
    intro n
    have hcons : List.enumFrom n (a :: t) = (n, a) :: List.enumFrom (n + 1) t := rfl
    rw [hcons]
    by_cases hp : p (n, a)
    · rw [List.filter_cons_of_pos hp, List.map_cons, List.pairwise_cons]
      refine ⟨fun j hj => ?_, ih (n + 1)⟩
      have := filterIdxFrom_lb p t (n + 1) j hj
      omega
    · rw [List.filter_cons_of_neg (by simpa using hp)]
      exact ih (n + 1)

/-- Claim C2: after a recompute, index `i` is in the filtered list iff the
entry at `i` has an enabled level and (the search string is empty, or its
lowercase form occurs in the lowercased message, tag, or level name); the
indices are strictly increasing, i.e. store order is preserved. -/
theorem c2_filter_index_correct (filters : List LogLevel) (q : String)
    (logs : List LogEntry) :
    (∀ i : Nat, i ∈ filterIndices filters q logs ↔
      ∃ e, logs[i]? = some e ∧ e.level ∈ filters ∧
        (q = "" ∨ strHasSub (toLowerStr e.message) (toLowerStr q) = true ∨
          strHasSub (toLowerStr e.tag) (toLowerStr q) = true ∨
          strHasSub (toLowerStr e.level.as_str) (toLowerStr q) = true)) ∧
    List.Pairwise (· < ·) (filterIndices filters q logs) ∧
    (∀ s : AppState, (update_filtered_logs s).filtered_logs =
      filterIndices s.level_filters s.search_query s.logs) := by
  refine ⟨fun i => ?_, ?_, fun s => rfl⟩
  · rw [mem_filterIndices]
    constructor
    · rintro ⟨e, he, hm⟩
      obtain ⟨h1, h2⟩ := (matchesFilter_iff filters q e).mp hm
      exact ⟨e, he, h1, h2⟩
    · rintro ⟨e, he, h1, h2⟩
      exact ⟨e, he, (matchesFilter_iff filters q e).mpr ⟨h1, h2⟩⟩
  · exact filterIdxFrom_pairwise _ logs 0

/-! ## Claim C3 -/

/-- Claim C3: with tail mode on, every operation that recomputes the
filtered index — an (unpaused) append, a level-filter toggle, and each
search-text edit (character push, backspace on a nonempty query, Esc
clearing the query, Enter confirming it) — leaves the scroll position at
`filtered_logs.length - 1`, which is `0` when the filtered list is
empty. -/
theorem c3_tail_pin :
    (∀ (s : AppState) (e : LogEntry), s.tail_mode = true → s.paused = false →
       (add_log s e).scroll = (add_log s e).filtered_logs.length - 1 ∧
       ((add_log s e).filtered_logs = [] → (add_log s e).scroll = 0)) ∧
    (∀ (s : AppState) (lv : LogLevel), s.tail_mode = true →
       (toggle_level s lv).scroll = (toggle_level s lv).filtered_logs.length - 1) ∧
    (∀ (s : AppState) (c : Char), s.tail_mode = true →
       (searchPushChar s c).scroll = (searchPushChar s c).filtered_logs.length - 1) ∧
    (∀ s : AppState, s.tail_mode = true → s.search_query ≠ "" →
       (searchDelChar s).scroll = (searchDelChar s).filtered_logs.length - 1) ∧
    (∀ s : AppState, s.tail_mode = true →
       (searchCancel s).scroll = (searchCancel s).filtered_logs.length - 1) ∧
    (∀ s : AppState, s.tail_mode = true →
       (searchConfirm s).scroll = (searchConfirm s).filtered_logs.length - 1) := by
  refine ⟨?_, ?_, ?_, ?_, ?_, ?_⟩
  · intro s e ht hp
    have h1 : (add_log s e).scroll = (add_log s e).filtered_logs.length - 1 := by
      rw [show add_log s e = update_filtered_logs
            { s with
              logs := (if CAP ≤ s.logs.length then s.logs.drop EVICT else s.logs) ++ [e]
              stats := bumpStats s.stats e.level } from by simp [add_log, hp]]
      exact tailPin _ (by simpa using ht)
    exact ⟨h1, fun hempty => by rw [h1, hempty]; rfl⟩
  · intro s lv ht
    exact tailPin _ (by simpa using ht)
  · intro s c ht
    exact tailPin _ (by simpa using ht)
  · intro s ht hq
    rw [show searchDelChar s = update_filtered_logs
          { s with search_query := String.mk s.search_query.data.dropLast } from by
        simp [searchDelChar, show s.search_query.isEmpty = false from by
          cases h : s.search_query.isEmpty
          · rfl
          · exact absurd (String.isEmpty_iff s.search_query |>.mp h) hq]]
    exact tailPin _ (by simpa using ht)
  · intro s ht
    show (update_filtered_logs { s with search_mode := false, search_query := "" }).scroll = _
    exact tailPin _ (by simpa using ht)
  · intro s ht
    show (update_filtered_logs { s with search_mode := false }).scroll = _
    exact tailPin _ (by simpa using ht)

theorem c3_tail_pin_witness :
    (add_log sTail eErr).scroll = (add_log sTail eErr).filtered_logs.length - 1 :=
  (c3_tail_pin.1 sTail eErr rfl rfl).1

/-! ## Claim C1 -/

theorem addAll_append_one (es : List LogEntry) (e : LogEntry) :
    addAll (es ++ [e]) = add_log (addAll es) e := by
  unfold addAll
  rw [List.foldl_append]
  rfl

theorem addAll_paused (es : List LogEntry) : (addAll es).paused = false := by
  induction es using List.reverseRecOn with
  | nil => rfl
  | append_singleton es e ih =>
    rw [addAll_append_one, add_log_paused_field]
    exact ih

/-- Claim C1: under any sequence of unpaused appends the store length
never exceeds `CAP`; when the length has reached `CAP` an append drops
the oldest `EVICT` entries in one batch before appending; the retained
entries are always a suffix of the arrival sequence in arrival order;
until `CAP` arrivals the store holds everything, and beyond `CAP`
arrivals its size stays between `CAP - EVICT + 1` and `CAP`. -/
theorem c1_store_bounded (es : List LogEntry) :
    (addAll es).logs.length ≤ CAP ∧
    (∃ k, k ≤ es.length ∧ (addAll es).logs = es.drop k) ∧
    (es.length ≤ CAP → (addAll es).logs.length = es.length) ∧
    (CAP < es.length → CAP - EVICT + 1 ≤ (addAll es).logs.length) ∧
    (∀ (s : AppState) (e : LogEntry), s.paused = false → CAP ≤ s.logs.length →
      (add_log s e).logs = s.logs.drop EVICT ++ [e]) := by
  have last : ∀ (s : AppState) (e : LogEntry), s.paused = false →
      CAP ≤ s.logs.length → (add_log s e).logs = s.logs.drop EVICT ++ [e] := by
    intro s e hp hc
    rw [add_log_logs s e hp, if_pos hc]
  refine ⟨?_, ?_, ?_, ?_, last⟩ <;> revert es
  all_goals
    intro es
    suffices h : (addAll es).logs.length ≤ CAP ∧
        (∃ k, k ≤ es.length ∧ (addAll es).logs = es.drop k) ∧
        (es.length ≤ CAP → (addAll es).logs.length = es.length) ∧
        (CAP < es.length → CAP - EVICT + 1 ≤ (addAll es).logs.length) by tauto
    induction es using List.reverseRecOn with
    | nil =>
      refine ⟨by simp [addAll, AppState.new], ⟨0, by simp, by simp [addAll, AppState.new]⟩,
        fun _ => by simp [addAll, AppState.new], fun h => absurd h (by simp)⟩
    | append_singleton es e ih =>
      obtain ⟨h1, ⟨k, hk, hlogs⟩, h3, h4⟩ := ih
      have hp := addAll_paused es
      have hstep := addAll_append_one es e
      have hklen : (addAll es).logs.length = es.length - k := by
        rw [hlogs, List.length_drop]
      by_cases hc : CAP ≤ (addAll es).logs.length
      · have hlen : (addAll es).logs.length = CAP := le_antisymm h1 hc
        have hlogs2 := last (addAll es) e hp hc
        have hlen2 : (add_log (addAll es) e).logs.length = CAP - EVICT + 1 := by
          rw [hlogs2]
          simp [List.length_drop, hlen]
        have heslen : es.length = CAP + k := by omega
        refine ⟨?_, ⟨k + EVICT, ?_, ?_⟩, ?_, ?_⟩
        · rw [hstep, hlen2]; simp [CAP, EVICT]
        · simp only [List.length_append, List.length_singleton]
          have : EVICT ≤ CAP := by simp [CAP, EVICT]
          omega
        · rw [hstep, hlogs2, hlogs, List.drop_drop]
          have hke : k + EVICT ≤ es.length := by
            have : EVICT ≤ CAP := by simp [CAP, EVICT]
            omega
          exact (List.drop_append_of_le_length hke).symm
        · intro hle
          exfalso
          simp only [List.length_append, List.length_singleton] at hle
          omega
        · intro _
          rw [hstep, hlen2]
      · push_neg at hc
        have hlogs2 : (add_log (addAll es) e).logs = (addAll es).logs ++ [e] := by
          rw [add_log_logs _ _ hp, if_neg (by omega)]
        have hlen2 : (add_log (addAll es) e).logs.length = (addAll es).logs.length + 1 := by
          rw [hlogs2]; simp
        refine ⟨?_, ⟨k, ?_, ?_⟩, ?_, ?_⟩
        · rw [hstep, hlen2]; omega
        · simp only [List.length_append, List.length_singleton]; omega
        · rw [hstep, hlogs2, hlogs]
          exact (List.drop_append_of_le_length hk).symm
        · intro hle
          simp only [List.length_append, List.length_singleton] at hle ⊢
          rw [hstep, hlen2, h3 (by omega)]
        · intro hgt
          simp only [List.length_append, List.length_singleton] at hgt
          rw [hstep, hlen2]
          by_cases hcap : CAP < es.length
          · have := h4 hcap
            omega
          · have heq : es.length = CAP := by omega
            have := h3 (by omega)
            omega

theorem c1_store_bounded_witness :
    (add_log bigState eErr).logs = bigState.logs.drop EVICT ++ [eErr] :=
  (c1_store_bounded []).2.2.2.2 bigState eErr rfl (by simp [bigState])

/-! ## Claim C5 -/

theorem sumLens_cons (r : Nat × String) (rs : List (Nat × String)) :
    sumLens (r :: rs) = r.1 + sumLens rs := by
  simp [sumLens]

theorem runStores_cons (base : String) (M : Nat) (r : Nat × String)
    (rs : List (Nat × String)) (s : StorageState) :
    runStores base M (r :: rs) s = runStores base M rs (store_log base r.2 M r.1 s) := rfl

theorem storesNoRotate (base : String) (M : Nat) :
    ∀ (ps : List (Nat × String)) (s : StorageState),
      s.current_size + sumLens ps < M * 1024 * 1024 →
      runStores base M ps s = { s with current_size := s.current_size + sumLens ps } := by
  intro ps
  induction ps with
  | nil =>
    intro s h
    simp [runStores, sumLens]
  | cons r rest ih =>
    intro s h
    rw [sumLens_cons] at h
    have hno : ¬ (M * 1024 * 1024 ≤ s.current_size + r.1) := by omega
    rw [runStores_cons, show store_log base r.2 M r.1 s =
        { s with current_size := s.current_size + r.1 } from by
      simp [store_log, hno]]
    rw [ih _ (by simp; omega)]
    simp [sumLens_cons]
    omega

/-- Claim C5: `store_log` bumps the byte counter by the serialized record
length and rotates exactly when the counter has reached
`max_size * 1024 * 1024`; rotation opens the file named from the rotation
timestamp and resets the counter to zero.  For a store sequence whose
cumulative counted size crosses the threshold exactly once, exactly one
new file is opened (at the crossing record), the old file's final counted
size stays below threshold-plus-one-record, and the state then writes to
the new file; the new file is distinct from the old one whenever its
timestamp string names a different path. -/
theorem c5_rotation (base : String) (M : Nat) :
    (∀ (now : String) (recLen : Nat) (s : StorageState),
       M * 1024 * 1024 ≤ s.current_size + recLen →
       store_log base now M recLen s =
         { currentFile := generate_filename base now, current_size := 0,
           openedFiles := s.openedFiles ++ [generate_filename base now] }) ∧
    (∀ (now : String) (recLen : Nat) (s : StorageState),
       s.current_size + recLen < M * 1024 * 1024 →
       store_log base now M recLen s = { s with current_size := s.current_size + recLen }) ∧
    (∀ (s0 : StorageState) (ps : List (Nat × String)) (r : Nat × String)
       (qs : List (Nat × String)),
       s0.current_size = 0 →
       sumLens ps < M * 1024 * 1024 →
       M * 1024 * 1024 ≤ sumLens ps + r.1 →
       sumLens qs < M * 1024 * 1024 →
       runStores base M (ps ++ r :: qs) s0 =
         { currentFile := generate_filename base r.2,
           current_size := sumLens qs,
           openedFiles := s0.openedFiles ++ [generate_filename base r.2] } ∧
       sumLens ps + r.1 < M * 1024 * 1024 + r.1 ∧
       (generate_filename base r.2 ≠ s0.currentFile →
         (runStores base M (ps ++ r :: qs) s0).currentFile ≠ s0.currentFile)) := by
  have hrot : ∀ (now : String) (recLen : Nat) (s : StorageState),
      M * 1024 * 1024 ≤ s.current_size + recLen →
      store_log base now M recLen s =
        { currentFile := generate_filename base now, current_size := 0,
          openedFiles := s.openedFiles ++ [generate_filename base now] } := by
    intro now recLen s h
    simp [store_log, rotate_log, h]
  have hnorot : ∀ (now : String) (recLen : Nat) (s : StorageState),
      s.current_size + recLen < M * 1024 * 1024 →
      store_log base now M recLen s = { s with current_size := s.current_size + recLen } := by
    intro now recLen s h
    simp [store_log]
    omega
  refine ⟨hrot, hnorot, ?_⟩
  intro s0 ps r qs h0 hps hr hqs
  have hfinal : runStores base M (ps ++ r :: qs) s0 =
      { currentFile := generate_filename base r.2,
        current_size := sumLens qs,
        openedFiles := s0.openedFiles ++ [generate_filename base r.2] } := by
    have h1 : runStores base M ps s0 = { s0 with current_size := sumLens ps } := by
      rw [storesNoRotate base M ps s0 (by omega)]
      simp [h0]
    have h2 : store_log base r.2 M r.1 { s0 with current_size := sumLens ps } =
        { currentFile := generate_filename base r.2, current_size := 0,
          openedFiles := s0.openedFiles ++ [generate_filename base r.2] } := by
      rw [hrot r.2 r.1 _ (by simpa using hr)]
    have h3 : runStores base M qs
        ({ currentFile := generate_filename base r.2, current_size := 0,
           openedFiles := s0.openedFiles ++ [generate_filename base r.2] } : StorageState) =
        { currentFile := generate_filename base r.2, current_size := sumLens qs,
          openedFiles := s0.openedFiles ++ [generate_filename base r.2] } := by
      rw [storesNoRotate base M qs _ (by simpa using hqs)]
      simp
    calc runStores base M (ps ++ r :: qs) s0
        = runStores base M (r :: qs) (runStores base M ps s0) := by
          unfold runStores
          rw [List.foldl_append]
      _ = runStores base M qs (store_log base r.2 M r.1 (runStores base M ps s0)) := rfl
      _ = _ := by rw [h1, h2, h3]
  refine ⟨hfinal, by omega, fun hne => ?_⟩
  rw [hfinal]
  exact hne

theorem c5_rotation_witness :
    runStores "logs" 1 [(500000, "t1"), (600000, "t2"), (100, "t3")]
        (storageNew "logs" "t0") =
      { currentFile := generate_filename "logs" "t2",
        current_size := sumLens [(100, "t3")],
        openedFiles := (storageNew "logs" "t0").openedFiles ++
          [generate_filename "logs" "t2"] } :=
  ((c5_rotation "logs" 1).2.2 (storageNew "logs" "t0") [(500000, "t1")] (600000, "t2")
    [(100, "t3")] rfl (by decide) (by decide) (by decide)).1

/-! ## Claim C8 -/

/-- Claim C8: the query scans every directory entry and returns exactly
the deserializable records whose timestamp lies in the inclusive range
`[startT, endT]`; a line that fails to deserialize (or to read) is
silently skipped, while a directory-entry error or file-open error aborts
the whole query with the error. -/
theorem c8_query_logs (parse : String → Option StoredLog) (startT endT : Int) :
    (∀ (lines : List (Except Unit String)) (g : StoredLog),
       g ∈ scanFileLines parse startT endT lines ↔
       ∃ str, Except.ok str ∈ lines ∧ parse str = some g ∧
         startT ≤ g.timestamp ∧ g.timestamp ≤ endT) ∧
    (∀ entries : List EntryRes,
       (∀ r ∈ entries, ∃ lines, r = EntryRes.file lines) →
       query_logs parse startT endT (.ok entries) =
         .ok ((entries.map fun r =>
           match r with
           | .file lines => scanFileLines parse startT endT lines
           | _ => []).flatten)) ∧
    (∀ entries : List EntryRes,
       (EntryRes.entryErr ∈ entries ∨ EntryRes.openErr ∈ entries) →
       query_logs parse startT endT (.ok entries) = .error ()) ∧
    (query_logs parse startT endT (.error ()) = .error ()) := by
  refine ⟨?_, ?_, ?_, rfl⟩
  · intro lines g
    simp only [scanFileLines, List.mem_filterMap]
    constructor
    · rintro ⟨l, hl, hf⟩
      match l with
      | .error u => simp at hf
      | .ok str =>
        have hf2 : (match parse str with
            | none => none
            | some g =>
              if startT ≤ g.timestamp ∧ g.timestamp ≤ endT then some g else none) =
            some g := hf
        cases hparse : parse str with
        | none => rw [hparse] at hf2; simp at hf2
        | some g2 =>
          rw [hparse] at hf2
          have hf3 : (if startT ≤ g2.timestamp ∧ g2.timestamp ≤ endT then some g2
              else none) = some g := hf2
          by_cases hrange : startT ≤ g2.timestamp ∧ g2.timestamp ≤ endT
          · rw [if_pos hrange] at hf3
            cases hf3
            exact ⟨str, hl, hparse, hrange.1, hrange.2⟩
          · rw [if_neg hrange] at hf3
            simp at hf3
    · rintro ⟨str, hmem, hp, h1, h2⟩
      exact ⟨.ok str, hmem, by simp [hp, h1, h2]⟩
  · intro entries hall
    show queryEntries parse startT endT entries = _
    induction entries with
    | nil => rfl
    | cons r rest ih =>
      obtain ⟨lines, rfl⟩ := hall r (by simp)
      have := ih fun x hx => hall x (by simp [hx])
      simp only [queryEntries, this, List.map_cons, List.flatten_cons]
  · intro entries hbad
    show queryEntries parse startT endT entries = _
    induction entries with
    | nil => simp at hbad
    | cons r rest ih =>
      match r with
      | .entryErr => rfl
      | .openErr => rfl
      | .file lines =>
        have hrest : EntryRes.entryErr ∈ rest ∨ EntryRes.openErr ∈ rest := by
          rcases hbad with h | h <;> simp at h <;> [left; right] <;> exact h
        simp only [queryEntries, ih hrest]

theorem c8_query_logs_witness :
    query_logs (fun _ => none) 0 10 (.ok [EntryRes.entryErr]) = .error () :=
  (c8_query_logs (fun _ => none) 0 10).2.2.1 [EntryRes.entryErr] (Or.inl (by simp))


/-! ## Claim C10 -/

theorem filterIndices_unknown (filters : List LogLevel) (q : String)
    (logs : List LogEntry) (hU : LogLevel.Unknown ∉ filters) :
    ∀ i ∈ filterIndices filters q logs,
      ∃ e, logs[i]? = some e ∧ e.level ≠ LogLevel.Unknown := by
  intro i hi
  obtain ⟨e, he, hm⟩ := (mem_filterIndices filters q logs i).mp hi
  refine ⟨e, he, fun hlev => ?_⟩
  have hlvin := ((matchesFilter_iff filters q e).mp hm).1
  rw [hlev] at hlvin
  exact hU hlvin

theorem update_inv (s : AppState) (hU : LogLevel.Unknown ∉ s.level_filters) :
    UnknownExcluded (update_filtered_logs s) :=
  ⟨hU, fun i hi => filterIndices_unknown _ _ _ hU i hi⟩

theorem toggle_level_inv (s : AppState) (lv : LogLevel) (h : UnknownExcluded s)
    (hlv : lv ≠ LogLevel.Unknown) : UnknownExcluded (toggle_level s lv) := by
  apply update_inv
  show LogLevel.Unknown ∉
    (if s.level_filters.contains lv then s.level_filters.erase lv
     else s.level_filters ++ [lv])
  intro hmem
  by_cases hc : s.level_filters.contains lv
  · rw [if_pos hc] at hmem
    exact h.1 (List.mem_of_mem_erase hmem)
  · rw [if_neg hc] at hmem
    rcases List.mem_append.mp hmem with h1 | h1
    · exact h.1 h1
    · simp at h1
      exact hlv h1.symm

theorem copyCurrent_inv (s : AppState) (h : UnknownExcluded s) :
    UnknownExcluded (copyCurrent s) := by
  unfold copyCurrent
  split
  · split
    · exact ⟨h.1, h.2⟩
    · exact h
  · exact h

theorem unknownExcluded_of_fields (s t : AppState) (h : UnknownExcluded s)
    (h1 : t.level_filters = s.level_filters)
    (h2 : t.filtered_logs = s.filtered_logs)
    (h3 : t.logs = s.logs) : UnknownExcluded t := by
  refine ⟨?_, ?_⟩
  · rw [h1]; exact h.1
  · intro i hi
    rw [h3]
    exact h.2 i (by rw [← h2]; exact hi)

theorem normalChar_inv (s : AppState) (c : Char) (h : UnknownExcluded s) :
    UnknownExcluded (normalChar s c) := by
  unfold normalChar
  by_cases hc1 : (c == '1')
  · rw [if_pos hc1]; exact unknownExcluded_of_fields s _ h rfl rfl rfl
  rw [if_neg hc1]
  by_cases hc2 : (c == '2')
  · rw [if_pos hc2]; exact unknownExcluded_of_fields s _ h rfl rfl rfl
  rw [if_neg hc2]
  by_cases hc3 : (c == '3')
  · rw [if_pos hc3]; exact unknownExcluded_of_fields s _ h rfl rfl rfl
  rw [if_neg hc3]
  by_cases hc4 : (c == '/')
  · rw [if_pos hc4]; exact unknownExcluded_of_fields s _ h rfl rfl rfl
  rw [if_neg hc4]
  by_cases hc5 : (c == ' ')
  · rw [if_pos hc5]; exact unknownExcluded_of_fields s _ h rfl rfl rfl
  rw [if_neg hc5]
  by_cases hc6 : (c == 't')
  · rw [if_pos hc6]; exact unknownExcluded_of_fields s _ h rfl rfl rfl
  rw [if_neg hc6]
  by_cases hc7 : (c == 'e')
  · rw [if_pos hc7]; exact toggle_level_inv s _ h (by decide)
  rw [if_neg hc7]
  by_cases hc8 : (c == 'w')
  · rw [if_pos hc8]; exact toggle_level_inv s _ h (by decide)
  rw [if_neg hc8]
  by_cases hc9 : (c == 'i')
  · rw [if_pos hc9]; exact toggle_level_inv s _ h (by decide)
  rw [if_neg hc9]
  by_cases hc10 : (c == 'd')
  · rw [if_pos hc10]; exact toggle_level_inv s _ h (by decide)
  rw [if_neg hc10]
  by_cases hc11 : (c == 'v')
  · rw [if_pos hc11]; exact toggle_level_inv s _ h (by decide)
  rw [if_neg hc11]
  by_cases hc12 : (c == 'G')
  · rw [if_pos hc12]; exact unknownExcluded_of_fields s _ h rfl rfl rfl
  rw [if_neg hc12]
  by_cases hc13 : (c == 'g')
  · rw [if_pos hc13]; exact unknownExcluded_of_fields s _ h rfl rfl rfl
  rw [if_neg hc13]
  by_cases hc14 : (c == 'y')
  · rw [if_pos hc14]; exact copyCurrent_inv s h
  rw [if_neg hc14]
  by_cases hc15 : (c == 'c')
  · rw [if_pos hc15]; exact copyCurrent_inv s h
  rw [if_neg hc15]
  by_cases hc16 : (c == 'n')
  · rw [if_pos hc16]; exact unknownExcluded_of_fields s _ h rfl rfl rfl
  rw [if_neg hc16]
  exact h

theorem applyEvent_inv (s : AppState) (ev : UiEvent) (h : UnknownExcluded s) :
    UnknownExcluded (applyEvent s ev) := by
  have hadd : ∀ e, UnknownExcluded (add_log s e) := by
    intro e
    unfold add_log
    split
    · exact h
    · exact update_inv _ h.1
  cases ev with
  | recvEntry e =>
    show UnknownExcluded (recvLog s e)
    show UnknownExcluded
      (if (add_log s e).tail_mode = true then
        { add_log s e with scroll := (add_log s e).filtered_logs.length - 1 }
      else add_log s e)
    by_cases ht : (add_log s e).tail_mode = true
    · rw [if_pos ht]
      exact unknownExcluded_of_fields (add_log s e) _ (hadd e) rfl rfl rfl
    · rw [if_neg ht]
      exact hadd e
  | recvStorage u => exact unknownExcluded_of_fields s _ h rfl rfl rfl
  | setConn c => exact unknownExcluded_of_fields s _ h rfl rfl rfl
  | keyChar c =>
    show UnknownExcluded (if s.search_mode = true then searchPushChar s c else normalChar s c)
    by_cases hm : s.search_mode = true
    · rw [if_pos hm]
      exact update_inv _ h.1
    · rw [if_neg hm]
      exact normalChar_inv s c h
  | keyEsc =>
    show UnknownExcluded (if s.search_mode = true then searchCancel s else s)
    by_cases hm : s.search_mode = true
    · rw [if_pos hm]
      exact unknownExcluded_of_fields _ _ (update_inv
        { s with search_mode := false, search_query := "" } h.1) rfl rfl rfl
    · rw [if_neg hm]; exact h
  | keyEnter =>
    show UnknownExcluded (if s.search_mode = true then searchConfirm s else s)
    by_cases hm : s.search_mode = true
    · rw [if_pos hm]
      exact unknownExcluded_of_fields _ _ (update_inv
        { s with search_mode := false } h.1) rfl rfl rfl
    · rw [if_neg hm]; exact h
  | keyBackspace =>
    show UnknownExcluded (if s.search_mode = true then searchDelChar s else s)
    by_cases hm : s.search_mode = true
    · rw [if_pos hm]
      unfold searchDelChar
      split
      · exact h
      · exact update_inv _ h.1
    · rw [if_neg hm]; exact h
  | keyUp =>
    dsimp only [applyEvent]
    repeat' split
    all_goals exact unknownExcluded_of_fields s _ h rfl rfl rfl
  | keyDown =>
    dsimp only [applyEvent]
    repeat' split
    all_goals exact unknownExcluded_of_fields s _ h rfl rfl rfl
  | keyHome =>
    dsimp only [applyEvent]
    repeat' split
    all_goals exact unknownExcluded_of_fields s _ h rfl rfl rfl
  | keyEnd =>
    dsimp only [applyEvent]
    repeat' split
    all_goals exact unknownExcluded_of_fields s _ h rfl rfl rfl
  | keyPageUp =>
    dsimp only [applyEvent]
    repeat' split
    all_goals exact unknownExcluded_of_fields s _ h rfl rfl rfl
  | keyPageDown =>
    dsimp only [applyEvent]
    repeat' split
    all_goals exact unknownExcluded_of_fields s _ h rfl rfl rfl
  | mouseScrollUp =>
    dsimp only [applyEvent]
    repeat' split
    all_goals exact unknownExcluded_of_fields s _ h rfl rfl rfl
  | mouseScrollDown =>
    dsimp only [applyEvent]
    repeat' split
    all_goals exact unknownExcluded_of_fields s _ h rfl rfl rfl

theorem runEvents_inv (evs : List UiEvent) :
    ∀ s : AppState, UnknownExcluded s → UnknownExcluded (evs.foldl applyEvent s) := by
  induction evs with
  | nil => intro s h; exact h
  | cons ev rest ih => intro s h; exact ih _ (applyEvent_inv s ev h)

/-- Claim C10: in every state reachable by the interactive loop,
`level_filters` never contains `Unknown` — it starts as exactly the five
real levels and is only toggled with those five — so an `Unknown`-level
entry never satisfies the level predicate and never appears in
`filtered_logs`. -/
theorem c10_unknown_excluded (evs : List UiEvent) :
    AppState.new.level_filters = [LogLevel.Error, LogLevel.Warning, LogLevel.Info,
      LogLevel.Debug, LogLevel.Verbose] ∧
    LogLevel.Unknown ∉ (runEvents evs).level_filters ∧
    (∀ i ∈ (runEvents evs).filtered_logs,
      ∃ e, (runEvents evs).logs[i]? = some e ∧ e.level ≠ LogLevel.Unknown) := by
  have hinv : UnknownExcluded (runEvents evs) :=
    runEvents_inv evs AppState.new ⟨by decide, fun i hi => absurd hi (by simp [AppState.new])⟩
  exact ⟨rfl, hinv.1, hinv.2⟩

theorem c10_unknown_excluded_witness :
    ∃ e, (runEvents [UiEvent.recvEntry eErr]).logs[0]? = some e ∧
      e.level ≠ LogLevel.Unknown :=
  (c10_unknown_excluded [UiEvent.recvEntry eErr]).2.2 0 (by decide)

theorem c2_filter_index_correct_witness :
    List.Pairwise (· < ·) (filterIndices [LogLevel.Error] "" [eInfo, eErr]) :=
  (c2_filter_index_correct [LogLevel.Error] "" [eInfo, eErr]).2.1
